import Mathlib

/-!
Verification of the flap-damping subprotocol of ringpop-node.

The definitions below are a shallow embedding of the damping code:
`lib/gossip` damper (given here as an unnamed source file) and
`server/protocol/damp_req.js`.  JavaScript objects used as string-keyed
maps are modelled as association lists whose key order is insertion
order; JavaScript numbers used as damp scores and timestamps are
modelled as `Int` (the spec calls scores "integer in practice", and the
code only ever compares them); fallible handlers return `Except`.
-/

/-- A per-flapper damp score tuple `{member, dampScore}` as it appears in a
damp-req response's `scores` array. -/
structure ResponseScore where
  member : String
  dampScore : Int
deriving Repr, DecidableEq

/-- A damp-req response as seen by `getMembersToDamp`.  The `scores` field of
a response may fail `Array.isArray` in the source; that case is modelled as
`none`. -/
structure DampReqResponse where
  scores : Option (List ResponseScore)
deriving Repr, DecidableEq

/-- All score tuples contributed by a list of responses, in response order.
Mirrors the nested loop of `Damper.getMembersToDamp`: a response whose
`scores` field is not an array is skipped (`Option.getD []`). -/
def scoreTuples (rs : List DampReqResponse) : List ResponseScore :=
  rs.foldr (fun r acc => r.scores.getD [] ++ acc) []

/-- Insertion into the key list of a JavaScript object: a new key is appended,
an existing key keeps its position. -/
def insertKey (ks : List String) (m : String) : List String :=
  if m ∈ ks then ks else ks ++ [m]

/-- The keys of `dampScoresByFlapper` built by `Damper.getMembersToDamp`, in
insertion order. -/
def groupKeys (rs : List DampReqResponse) : List String :=
  (scoreTuples rs).foldl (fun ks s => insertKey ks s.member) []

/-- The group `dampScoresByFlapper[member]`: the score tuples for `member`
in arrival order. -/
def groupScores (rs : List DampReqResponse) (member : String) : List ResponseScore :=
  (scoreTuples rs).filter (fun s => s.member == member)

/-- `Damper.getMembersToDamp(allResponses, rVal, config)`: group the score
tuples by member, then keep the members whose group has at least `rVal`
scores, all of them at or above `suppressLimit`
(`scoresExceedSuppressLimit`). -/
def getMembersToDamp (rs : List DampReqResponse) (rVal : Nat) (suppressLimit : Int) :
    List String :=
  (groupKeys rs).filter fun member =>
    decide (rVal ≤ (groupScores rs member).length) &&
      (groupScores rs member).all fun s => decide (suppressLimit ≤ s.dampScore)

/-- A member record as the damp-req handler reads it from the membership
table: an address and the locally maintained damp score. -/
structure Member where
  address : String
  dampScore : Int
deriving Repr, DecidableEq

/-- `membership.findMemberByAddress(addr)`: nullable lookup by address. -/
def findMemberByAddress (membership : List Member) (addr : String) : Option Member :=
  membership.find? (fun m => m.address == addr)

/-- The `flappers` field of a damp-req body: absent, present but not an
array, or an array of addresses. -/
inductive FlappersField where
  | missing
  | notArray
  | arr (flappers : List String)
deriving Repr, DecidableEq

/-- Modelled from the spec: `validateRequest` (defined in
`request_response.js`, which is not among the given sources) rejects a body
that is missing one of the required fields — here `flappers` — with a
transport-level error. -/
def validateRequestFlappers : FlappersField → Bool
  | .missing => false
  | _ => true

/-- `handleDampReq`: validate the body, reject a non-array `flappers` field,
otherwise `reduce` over the flappers, pushing a `{member, dampScore}` tuple
for each flapper found in the membership table. -/
def handleDampReq (membership : List Member) (flappers : FlappersField) :
    Except String (List ResponseScore) :=
  if !validateRequestFlappers flappers then
    .error "Bad request: missing flappers"
  else
    match flappers with
    | .missing => .error "Bad request: missing flappers"
    | .notArray => .error "Bad request: flappers is not an Array"
    | .arr fs =>
        .ok (fs.foldl
          (fun result flapper =>
            match findMemberByAddress membership flapper with
            | none => result
            | some m => result ++ [⟨m.address, m.dampScore⟩])
          [])

/-- The receive-side scores as the spec words them: one `{member, dampScore}`
tuple per flapper found in the local membership table, flappers with no
matching member omitted. -/
def specDampReqScores (membership : List Member) (fs : List String) : List ResponseScore :=
  fs.filterMap fun flapper =>
    (findMemberByAddress membership flapper).map fun m => ⟨m.address, m.dampScore⟩

/-- The damper's mutable state: the flapper set (`this.flappers`, keys in
insertion order), the damped set (`this.dampedMembers`, address to commit
timestamp), and the two timer flags (`isDampTimerEnabled`, and whether
`dampedMemberExpirationTimer` is non-null). -/
structure DamperState where
  flappers : List String
  dampedMembers : List (String × Int)
  isDampTimerEnabled : Bool
  expirationTimerArmed : Bool
deriving Repr, DecidableEq

/-- The damper's state at construction. -/
def initDamperState : DamperState :=
  { flappers := [], dampedMembers := [], isDampTimerEnabled := false,
    expirationTimerArmed := false }

/-- Addresses of the damped set (`Object.keys(this.dampedMembers)`). -/
def dampedAddrs (st : DamperState) : List String :=
  st.dampedMembers.map Prod.fst

/-- Truthiness of `this.dampedMembers[addr]`. -/
def isDamped (st : DamperState) (addr : String) : Bool :=
  (st.dampedMembers.find? (fun p => p.1 == addr)).isSome

/-- `Damper.prototype._startDampTimer`: a no-op when already enabled,
otherwise sets the enabled flag (the scheduled closure itself is outside the
embedding). -/
def startDampTimer (st : DamperState) : DamperState :=
  if st.isDampTimerEnabled then st else { st with isDampTimerEnabled := true }

/-- `Damper.prototype._stopDampTimer`: a no-op when already stopped,
otherwise clears the enabled flag. -/
def stopDampTimer (st : DamperState) : DamperState :=
  if !st.isDampTimerEnabled then st else { st with isDampTimerEnabled := false }

/-- `Damper.prototype.addFlapper`: log-and-return when the address is already
damped or already a flapper; otherwise insert it and, when the flapper count
just became 1, start the damp timer. -/
def addFlapper (st : DamperState) (addr : String) : DamperState :=
  if isDamped st addr then st
  else if addr ∈ st.flappers then st
  else
    let st1 : DamperState := { st with flappers := st.flappers ++ [addr] }
    if st1.flappers.length = 1 then startDampTimer st1 else st1

/-- `Damper.prototype.removeFlapper`: log-and-return when the address is not
a flapper; otherwise delete it and, when the flapper count reaches 0, stop
the damp timer. -/
def removeFlapper (st : DamperState) (addr : String) : DamperState :=
  if addr ∈ st.flappers then
    let st1 : DamperState := { st with flappers := st.flappers.filter (fun a => a != addr) }
    if st1.flappers.length = 0 then stopDampTimer st1 else st1
  else st

/-- `this.dampedMembers[addr] = {timestamp: now}`: replace the timestamp when
the key exists, append otherwise. -/
def dampedInsert (dm : List (String × Int)) (addr : String) (now : Int) :
    List (String × Int) :=
  if (dm.find? (fun p => p.1 == addr)).isSome then
    dm.map (fun p => if p.1 == addr then (addr, now) else p)
  else
    dm ++ [(addr, now)]

/-- `Damper.prototype._dampMember` (the membership side effect
`makeDamped` is external): remove the address from the flapper set, record it
in the damped set with the current time, and arm the expiration timer if it
is not already armed. -/
def dampMember (st : DamperState) (addr : String) (now : Int) : DamperState :=
  let st1 := removeFlapper st addr
  let st2 : DamperState := { st1 with dampedMembers := dampedInsert st1.dampedMembers addr now }
  if st2.expirationTimerArmed then st2 else { st2 with expirationTimerArmed := true }

/-- The source's empty-set check `Object.keys(this.dampedMembers) === 0`:
strict equality between an array and the number 0, false for every array. -/
def keysStrictEqualsZero (_keys : List String) : Bool :=
  false

/-- `Damper.prototype._expireDampedMembers`: delete every entry whose damped
duration `now - timestamp` has reached `suppressDuration`; then clear the
expiration timer if `keysStrictEqualsZero` holds of the remaining keys (it
never does, see `keysStrictEqualsZero`). -/
def expireDampedMembers (st : DamperState) (now : Int) (suppressDuration : Int) :
    DamperState :=
  let st1 : DamperState :=
    { st with dampedMembers :=
        st.dampedMembers.filter (fun p => !decide (suppressDuration ≤ now - p.2)) }
  if keysStrictEqualsZero (dampedAddrs st1) then
    { st1 with expirationTimerArmed := false }
  else st1

/-- One damper operation, for reasoning about operation sequences. -/
inductive DamperOp where
  | addFlapper (addr : String)
  | removeFlapper (addr : String)
  | dampMember (addr : String) (now : Int)
  | expireDamped (now : Int) (suppressDuration : Int)
deriving Repr, DecidableEq

/-- Apply one damper operation to a state. -/
def applyDamperOp (st : DamperState) : DamperOp → DamperState
  | .addFlapper addr => addFlapper st addr
  | .removeFlapper addr => removeFlapper st addr
  | .dampMember addr now => dampMember st addr now
  | .expireDamped now d => expireDampedMembers st now d

/-- Run a sequence of damper operations from the initial (empty) state. -/
def runDamperOps (ops : List DamperOp) : DamperState :=
  ops.foldl applyDamperOp initDamperState

/-- A successful damp-req response body as the fan-out callback sees it: an
optional piggybacked `changes` array (`none` when `Array.isArray(res.changes)`
fails). Change payloads are opaque here. -/
structure DampRes where
  changes : Option (List String)
deriving Repr, DecidableEq

/-- One per-request callback invocation of the fan-out: either a transport
error or a successful response. -/
inductive Response where
  | err (e : String)
  | ok (res : DampRes)
deriving Repr, DecidableEq

/-- What the fan-out's completion continuation is invoked with: `callback(null,
results)` or `callback(UnattainableRValError({flappers, rVal, errors}))`. -/
inductive FanoutOutcome where
  | success (results : List DampRes)
  | unattainable (flappers : List String) (rVal : Nat) (errors : List String)
deriving Repr, DecidableEq

/-- The closure state of `_fanoutDampReqs`: the pending-request counter, the
two accumulator lists, whether `callback` has been nulled (`consumed`), the
argument of the continuation call if it happened (`output`), how many times
the continuation has been invoked, and the membership changes applied so far
by `self.ringpop.membership.update(res.changes)`. -/
structure FanoutState where
  numPendingReqs : Nat
  errors : List String
  results : List DampRes
  consumed : Bool
  output : Option FanoutOutcome
  invocationCount : Nat
  appliedChanges : List String
deriving Repr, DecidableEq

/-- The fan-out closure state right after the requests are sent:
`numPendingReqs = dampReqMembers.length`, empty accumulators, the
continuation not yet consumed. -/
def initFanout (n : Nat) : FanoutState :=
  { numPendingReqs := n, errors := [], results := [], consumed := false,
    output := none, invocationCount := 0, appliedChanges := [] }

/-- The accumulation part of `onDampReq` (after the double-callback guard):
decrement `numPendingReqs`; push an error, or apply the piggybacked changes
and push the result. -/
def dampAccum (st : FanoutState) (r : Response) : FanoutState :=
  let st1 : FanoutState := { st with numPendingReqs := st.numPendingReqs - 1 }
  match r with
  | .err e => { st1 with errors := st1.errors ++ [e] }
  | .ok res =>
      let st2 : FanoutState :=
        match res.changes with
        | some cs => { st1 with appliedChanges := st1.appliedChanges ++ cs }
        | none => st1
      { st2 with results := st2.results ++ [res] }

/-- One invocation of `onDampReq` inside `_fanoutDampReqs`: return unchanged
when the continuation is consumed (`typeof callback !== 'function'`);
otherwise accumulate the response, then invoke the continuation with the
results once `results.length >= rVal`, or with the unattainable-rVal error
once `numPendingReqs < rVal - results.length`. -/
def dampStep (flappers : List String) (rVal : Nat) (st : FanoutState) (r : Response) :
    FanoutState :=
  if st.consumed then st
  else
    let a := dampAccum st r
    if rVal ≤ a.results.length then
      { a with output := some (.success a.results), consumed := true,
               invocationCount := a.invocationCount + 1 }
    else if a.numPendingReqs < rVal - a.results.length then
      { a with output := some (.unattainable flappers rVal a.errors), consumed := true,
               invocationCount := a.invocationCount + 1 }
    else a

/-- A whole fan-out round: every one of the `rs.length` outgoing requests
invokes its callback exactly once, in the order given by `rs`. -/
def runFanout (flappers : List String) (rVal : Nat) (rs : List Response) : FanoutState :=
  rs.foldl (dampStep flappers rVal) (initFanout rs.length)

/-- The fan-out state after the first `k` of the `rs.length` callbacks. -/
def fanoutAfter (flappers : List String) (rVal : Nat) (rs : List Response) (k : Nat) :
    FanoutState :=
  (rs.take k).foldl (dampStep flappers rVal) (initFanout rs.length)

/-- The early-abort guard of `onDampReq`, on the state right after
accumulating a response: the still-pending requests are too few to ever
reach the quorum. -/
def unattainGuard (rVal : Nat) (a : FanoutState) : Prop :=
  a.numPendingReqs < rVal - a.results.length

instance (rVal : Nat) (a : FanoutState) : Decidable (unattainGuard rVal a) := by
  unfold unattainGuard; infer_instance

/-! ## Helper lemmas -/

theorem mem_insertKey (ks : List String) (x m : String) :
    m ∈ insertKey ks x ↔ m ∈ ks ∨ m = x := by
  unfold insertKey
  by_cases h : x ∈ ks
  · simp only [if_pos h]
    constructor
    · exact Or.inl
    · rintro (hm | rfl)
      · exact hm
      · exact h
  · simp [if_neg h]

theorem mem_foldl_insertKey (l : List ResponseScore) (ks : List String) (m : String) :
    m ∈ l.foldl (fun ks s => insertKey ks s.member) ks ↔
      m ∈ ks ∨ ∃ s ∈ l, s.member = m := by
  induction l generalizing ks with
  | nil => simp
  | cons s l ih =>
      rw [List.foldl_cons, ih, mem_insertKey]
      simp only [List.mem_cons]
      constructor
      · rintro ((hm | rfl) | ⟨t, ht, rfl⟩)
        · exact Or.inl hm
        · exact Or.inr ⟨s, Or.inl rfl, rfl⟩
        · exact Or.inr ⟨t, Or.inr ht, rfl⟩
      · rintro (hm | ⟨t, (rfl | ht), rfl⟩)
        · exact Or.inl (Or.inl hm)
        · exact Or.inl (Or.inr rfl)
        · exact Or.inr ⟨t, ht, rfl⟩

theorem mem_groupKeys (rs : List DampReqResponse) (m : String) :
    m ∈ groupKeys rs ↔ ∃ s ∈ scoreTuples rs, s.member = m := by
  unfold groupKeys
  rw [mem_foldl_insertKey]
  simp

theorem mem_groupScores (rs : List DampReqResponse) (m : String) (s : ResponseScore) :
    s ∈ groupScores rs m ↔ s ∈ scoreTuples rs ∧ s.member = m := by
  unfold groupScores
  rw [List.mem_filter]
  simp

/-- Membership in the decision, unconditionally: `m` is a grouping key and
its group passes the size and unanimity checks. -/
theorem mem_getMembersToDamp_char (rs : List DampReqResponse) (rVal : Nat)
    (suppressLimit : Int) (m : String) :
    m ∈ getMembersToDamp rs rVal suppressLimit ↔
      (∃ s ∈ scoreTuples rs, s.member = m) ∧
        rVal ≤ (groupScores rs m).length ∧
          ∀ s ∈ groupScores rs m, suppressLimit ≤ s.dampScore := by
  unfold getMembersToDamp
  rw [List.mem_filter, mem_groupKeys]
  simp only [Bool.and_eq_true, decide_eq_true_eq, List.all_eq_true, and_assoc]

theorem scoreTuples_cons (r : DampReqResponse) (rs : List DampReqResponse) :
    scoreTuples (r :: rs) = r.scores.getD [] ++ scoreTuples rs := rfl

theorem scoreTuples_perm {rs1 rs2 : List DampReqResponse} (h : rs1.Perm rs2) :
    (scoreTuples rs1).Perm (scoreTuples rs2) := by
  induction h with
  | nil => exact List.Perm.refl _
  | cons x _ ih =>
      rw [scoreTuples_cons, scoreTuples_cons]
      exact ih.append_left _
  | swap x y l =>
      rw [scoreTuples_cons, scoreTuples_cons, scoreTuples_cons, scoreTuples_cons,
        ← List.append_assoc, ← List.append_assoc]
      exact List.perm_append_comm.append_right _
  | trans _ _ ih1 ih2 => exact ih1.trans ih2

/-- Responses whose scores field is not an array contribute no tuples:
filtering them out of the input leaves the tuples unchanged. -/
theorem scoreTuples_filter_isSome (rs : List DampReqResponse) :
    scoreTuples (rs.filter fun r => r.scores.isSome) = scoreTuples rs := by
  induction rs with
  | nil => rfl
  | cons r rs ih =>
      cases hs : r.scores with
      | none => simp [List.filter_cons, hs, scoreTuples_cons, ih]
      | some l => simp [List.filter_cons, hs, scoreTuples_cons, ih]

/-- The decision depends on the input only through its score tuples. -/
theorem getMembersToDamp_congr {rs1 rs2 : List DampReqResponse}
    (h : scoreTuples rs1 = scoreTuples rs2) (rVal : Nat) (suppressLimit : Int) :
    getMembersToDamp rs1 rVal suppressLimit = getMembersToDamp rs2 rVal suppressLimit := by
  unfold getMembersToDamp groupKeys groupScores
  rw [h]

theorem foldl_push_filterMap (membership : List Member) (fs : List String)
    (acc : List ResponseScore) :
    fs.foldl
        (fun result flapper =>
          match findMemberByAddress membership flapper with
          | none => result
          | some m => result ++ [⟨m.address, m.dampScore⟩])
        acc
      = acc ++ specDampReqScores membership fs := by
  induction fs generalizing acc with
  | nil => simp [specDampReqScores]
  | cons f fs ih =>
      rw [List.foldl_cons]
      cases hf : findMemberByAddress membership f with
      | none => simp [hf, ih, specDampReqScores, List.filterMap_cons, hf]
      | some m => simp [hf, ih, specDampReqScores, List.filterMap_cons, hf]

/-! ## Claim theorems: scoring and decision -/

/-- C1: for quorum size `rVal` (at least 1) and any suppress limit, a member
address is in `getMembersToDamp`'s output iff its group of score tuples has
at least `rVal` entries, all at or above the suppress limit; and responses
with a non-array scores field contribute nothing to the decision. -/
theorem getMembersToDamp_mem_iff (rs : List DampReqResponse) (rVal : Nat)
    (suppressLimit : Int) (m : String) (h : 1 ≤ rVal) :
    (m ∈ getMembersToDamp rs rVal suppressLimit ↔
      rVal ≤ (groupScores rs m).length ∧
        ∀ s ∈ groupScores rs m, suppressLimit ≤ s.dampScore) ∧
      getMembersToDamp (rs.filter fun r => r.scores.isSome) rVal suppressLimit =
        getMembersToDamp rs rVal suppressLimit := by
  constructor
  · rw [mem_getMembersToDamp_char]
    constructor
    · rintro ⟨-, hlen, hall⟩
      exact ⟨hlen, hall⟩
    · rintro ⟨hlen, hall⟩
      refine ⟨?_, hlen, hall⟩
      have hne : groupScores rs m ≠ [] := by
        intro he
        rw [he] at hlen
        simp at hlen
        omega
      obtain ⟨s, hs⟩ := List.exists_mem_of_ne_nil _ hne
      have := (mem_groupScores rs m s).mp hs
      exact ⟨s, this.1, this.2⟩
  · exact getMembersToDamp_congr (scoreTuples_filter_isSome rs) rVal suppressLimit

/-- Witness for C1 at a concrete input. -/
theorem getMembersToDamp_mem_iff_witness :
    "x" ∈ getMembersToDamp [⟨some [⟨"x", 5⟩]⟩] 1 3 :=
  ((getMembersToDamp_mem_iff [⟨some [⟨"x", 5⟩]⟩] 1 3 "x" (by decide)).1).mpr
    ⟨by decide, by decide⟩

/-- C7: the decision is invariant under permutation of the response list:
permuted inputs yield the same set of member addresses. -/
theorem getMembersToDamp_perm (rs1 rs2 : List DampReqResponse) (rVal : Nat)
    (suppressLimit : Int) (h : rs1.Perm rs2) (m : String) :
    m ∈ getMembersToDamp rs1 rVal suppressLimit ↔
      m ∈ getMembersToDamp rs2 rVal suppressLimit := by
  have hst := scoreTuples_perm h
  have hgs : (groupScores rs1 m).Perm (groupScores rs2 m) := hst.filter _
  rw [mem_getMembersToDamp_char, mem_getMembersToDamp_char]
  constructor
  · rintro ⟨⟨s, hs, hm⟩, hlen, hall⟩
    exact ⟨⟨s, hst.mem_iff.mp hs, hm⟩, hgs.length_eq ▸ hlen,
      fun t ht => hall t (hgs.mem_iff.mpr ht)⟩
  · rintro ⟨⟨s, hs, hm⟩, hlen, hall⟩
    exact ⟨⟨s, hst.mem_iff.mpr hs, hm⟩, hgs.length_eq ▸ hlen,
      fun t ht => hall t (hgs.mem_iff.mp ht)⟩

/-- Witness for C7 at a concrete transposition. -/
theorem getMembersToDamp_perm_witness :
    "x" ∈ getMembersToDamp [⟨some [⟨"x", 7⟩]⟩, ⟨some [⟨"y", 1⟩]⟩] 1 0 ↔
      "x" ∈ getMembersToDamp [⟨some [⟨"y", 1⟩]⟩, ⟨some [⟨"x", 7⟩]⟩] 1 0 :=
  getMembersToDamp_perm _ _ 1 0
    (List.Perm.swap ⟨some [⟨"y", 1⟩]⟩ ⟨some [⟨"x", 7⟩]⟩ []) "x"

/-- C10: the decision counts score tuples, not distinct observers: one single
response carrying two above-limit tuples for `"x"` makes `"x"` damped at
quorum 2, though only one observer reported. -/
theorem getMembersToDamp_counts_tuples :
    getMembersToDamp [⟨some [⟨"x", 10⟩, ⟨"x", 12⟩]⟩] 2 10 = ["x"] ∧
      ([(⟨some [⟨"x", 10⟩, ⟨"x", 12⟩]⟩ : DampReqResponse)]).length < 2 := by
  decide

/-! ## Claim theorems: receive-side handler -/

/-- C8: on an array `flappers` field the handler returns exactly one
`{member, dampScore}` tuple per flapper found in the membership table,
omitting the rest; a missing or non-array field yields an error. -/
theorem handleDampReq_spec (membership : List Member) (fv : FlappersField) :
    (∀ fs, fv = .arr fs →
        handleDampReq membership fv = .ok (specDampReqScores membership fs)) ∧
      ((fv = .missing ∨ fv = .notArray) →
        ∃ e, handleDampReq membership fv = .error e) := by
  constructor
  · rintro fs rfl
    unfold handleDampReq
    simp only [validateRequestFlappers, Bool.not_true, Bool.false_eq_true, if_false]
    rw [foldl_push_filterMap membership fs []]
    rw [List.nil_append]
  · rintro (rfl | rfl) <;> exact ⟨_, rfl⟩

/-- Witness for C8 at a concrete membership table and request. -/
theorem handleDampReq_spec_witness :
    handleDampReq [⟨"a", 5⟩] (.arr ["a", "b"]) =
      .ok (specDampReqScores [⟨"a", 5⟩] ["a", "b"]) :=
  (handleDampReq_spec [⟨"a", 5⟩] (.arr ["a", "b"])).1 ["a", "b"] rfl

/-! ## Helper lemmas: damper state -/

theorem startDampTimer_flappers (st : DamperState) :
    (startDampTimer st).flappers = st.flappers := by
  by_cases h : st.isDampTimerEnabled = true <;> simp [startDampTimer, h]

theorem startDampTimer_dampedMembers (st : DamperState) :
    (startDampTimer st).dampedMembers = st.dampedMembers := by
  by_cases h : st.isDampTimerEnabled = true <;> simp [startDampTimer, h]

theorem stopDampTimer_flappers (st : DamperState) :
    (stopDampTimer st).flappers = st.flappers := by
  by_cases h : st.isDampTimerEnabled = true <;> simp [stopDampTimer, h]

theorem stopDampTimer_dampedMembers (st : DamperState) :
    (stopDampTimer st).dampedMembers = st.dampedMembers := by
  by_cases h : st.isDampTimerEnabled = true <;> simp [stopDampTimer, h]

theorem isDamped_iff_mem (st : DamperState) (f : String) :
    isDamped st f = true ↔ f ∈ dampedAddrs st := by
  unfold isDamped dampedAddrs
  rw [List.find?_isSome]
  simp only [beq_iff_eq, List.mem_map]

theorem removeFlapper_dampedMembers (st : DamperState) (addr : String) :
    (removeFlapper st addr).dampedMembers = st.dampedMembers := by
  unfold removeFlapper
  split
  · dsimp only
    split
    · rw [stopDampTimer_dampedMembers]
    · rfl
  · rfl

theorem mem_removeFlapper_flappers (st : DamperState) (addr a : String)
    (h : a ∈ (removeFlapper st addr).flappers) : a ∈ st.flappers ∧ a ≠ addr := by
  unfold removeFlapper at h
  split at h
  · rename_i hin
    dsimp only at h
    split at h
    · rw [stopDampTimer_flappers] at h
      have := List.mem_filter.mp h
      refine ⟨this.1, ?_⟩
      simpa using this.2
    · have := List.mem_filter.mp h
      refine ⟨this.1, ?_⟩
      simpa using this.2
  · rename_i hin
    exact ⟨h, fun he => hin (he ▸ h)⟩

theorem mem_dampedInsert (dm : List (String × Int)) (addr : String) (now : Int)
    (a : String) (h : a ∈ (dampedInsert dm addr now).map Prod.fst) :
    a ∈ dm.map Prod.fst ∨ a = addr := by
  unfold dampedInsert at h
  split at h
  · rw [List.map_map] at h
    obtain ⟨p, hp, he⟩ := List.mem_map.mp h
    by_cases hpa : p.1 = addr
    · right
      simp only [Function.comp_apply, if_pos (beq_iff_eq.mpr hpa)] at he
      exact he.symm
    · left
      simp only [Function.comp_apply, if_neg (fun hb => hpa (beq_iff_eq.mp hb))] at he
      exact List.mem_map.mpr ⟨p, hp, he⟩
  · rw [List.map_append] at h
    rcases List.mem_append.mp h with hm | hm
    · exact Or.inl hm
    · right
      simpa using hm

/-- The disjointness invariant of flapper set and damped set. -/
def flapperDampedDisjoint (st : DamperState) : Prop :=
  ∀ a, a ∈ st.flappers → a ∉ dampedAddrs st

theorem addFlapper_preserves_disjoint (st : DamperState) (addr : String)
    (h : flapperDampedDisjoint st) : flapperDampedDisjoint (addFlapper st addr) := by
  unfold addFlapper
  by_cases hd : isDamped st addr = true
  · simp only [if_pos hd]; exact h
  · simp only [if_neg hd]
    by_cases hf : addr ∈ st.flappers
    · simp only [if_pos hf]; exact h
    · simp only [if_neg hf]
      have key : ∀ a, a ∈ st.flappers ++ [addr] → a ∉ dampedAddrs st := by
        intro a ha
        rcases List.mem_append.mp ha with ha | ha
        · exact h a ha
        · have : a = addr := by simpa using ha
          subst this
          intro hmem
          exact hd ((isDamped_iff_mem st a).mpr hmem)
      split
      · intro a ha
        rw [startDampTimer_flappers] at ha
        unfold dampedAddrs
        rw [startDampTimer_dampedMembers]
        exact key a ha
      · exact key

theorem removeFlapper_preserves_disjoint (st : DamperState) (addr : String)
    (h : flapperDampedDisjoint st) : flapperDampedDisjoint (removeFlapper st addr) := by
  intro a ha
  unfold dampedAddrs
  rw [removeFlapper_dampedMembers]
  exact h a (mem_removeFlapper_flappers st addr a ha).1

theorem dampMember_preserves_disjoint (st : DamperState) (addr : String) (now : Int)
    (h : flapperDampedDisjoint st) : flapperDampedDisjoint (dampMember st addr now) := by
  unfold dampMember
  have key : ∀ a,
      a ∈ (removeFlapper st addr).flappers →
        a ∉ (dampedInsert (removeFlapper st addr).dampedMembers addr now).map Prod.fst := by
    intro a ha hmem
    obtain ⟨hmem', hne⟩ := mem_removeFlapper_flappers st addr a ha
    rcases mem_dampedInsert _ addr now a hmem with hm | rfl
    · rw [removeFlapper_dampedMembers] at hm
      exact h a hmem' hm
    · exact hne rfl
  dsimp only
  split
  · exact key
  · exact key

theorem expire_preserves_disjoint (st : DamperState) (now d : Int)
    (h : flapperDampedDisjoint st) :
    flapperDampedDisjoint (expireDampedMembers st now d) := by
  unfold expireDampedMembers keysStrictEqualsZero
  simp only [Bool.false_eq_true, if_false]
  intro a ha hmem
  unfold dampedAddrs at hmem
  obtain ⟨p, hp, he⟩ := List.mem_map.mp hmem
  exact h a ha (List.mem_map.mpr ⟨p, (List.mem_filter.mp hp).1, he⟩)

theorem applyDamperOp_preserves_disjoint (st : DamperState) (op : DamperOp)
    (h : flapperDampedDisjoint st) : flapperDampedDisjoint (applyDamperOp st op) := by
  cases op with
  | addFlapper addr => exact addFlapper_preserves_disjoint st addr h
  | removeFlapper addr => exact removeFlapper_preserves_disjoint st addr h
  | dampMember addr now => exact dampMember_preserves_disjoint st addr now h
  | expireDamped now d => exact expire_preserves_disjoint st now d h

theorem foldl_preserves_disjoint (ops : List DamperOp) (st : DamperState)
    (h : flapperDampedDisjoint st) :
    flapperDampedDisjoint (ops.foldl applyDamperOp st) := by
  induction ops generalizing st with
  | nil => exact h
  | cons op ops ih =>
      rw [List.foldl_cons]
      exact ih _ (applyDamperOp_preserves_disjoint st op h)

/-! ## Claim theorems: damper state machine -/

/-- C3: after any sequence of damper operations from the empty state, no
address is both a flapper and damped: the two sets stay disjoint. -/
theorem flapper_damped_disjoint (ops : List DamperOp) (a : String)
    (ha : a ∈ (runDamperOps ops).flappers) : a ∉ dampedAddrs (runDamperOps ops) :=
  foldl_preserves_disjoint ops initDamperState (fun _ h => by simp [initDamperState] at h)
    a ha

/-- Witness for C3 at a concrete operation sequence. -/
theorem flapper_damped_disjoint_witness :
    "a" ∉ dampedAddrs (runDamperOps [DamperOp.addFlapper "a"]) :=
  flapper_damped_disjoint [DamperOp.addFlapper "a"] "a" (by decide)

/-- C9: `addFlapper` is idempotent, and is a no-op — the whole state, damp
timer included, unchanged — when the address is already damped or already a
flapper. -/
theorem addFlapper_idempotent (st : DamperState) (f : String) :
    addFlapper (addFlapper st f) f = addFlapper st f ∧
      (isDamped st f = true ∨ f ∈ st.flappers → addFlapper st f = st) := by
  by_cases hd : isDamped st f = true
  · have hfix : addFlapper st f = st := by
      unfold addFlapper; simp only [if_pos hd]
    rw [hfix]
    exact ⟨hfix, fun _ => rfl⟩
  · by_cases hf : f ∈ st.flappers
    · have hfix : addFlapper st f = st := by
        unfold addFlapper; simp only [if_neg hd, if_pos hf]
      rw [hfix]
      exact ⟨hfix, fun _ => rfl⟩
    · constructor
      · have hA : (addFlapper st f).flappers = st.flappers ++ [f] ∧
            (addFlapper st f).dampedMembers = st.dampedMembers := by
          unfold addFlapper
          simp only [if_neg hd, if_neg hf]
          split
          · rw [startDampTimer_flappers, startDampTimer_dampedMembers]
            exact ⟨rfl, rfl⟩
          · exact ⟨rfl, rfl⟩
        have hd2 : ¬ isDamped (addFlapper st f) f = true := by
          unfold isDamped at hd ⊢
          rw [hA.2]
          exact hd
        have hf2 : f ∈ (addFlapper st f).flappers := by
          rw [hA.1]
          simp
        have key : ∀ st2 : DamperState, ¬ isDamped st2 f = true → f ∈ st2.flappers →
            addFlapper st2 f = st2 := by
          intro st2 h1 h2
          unfold addFlapper
          simp only [if_neg h1, if_pos h2]
        exact key (addFlapper st f) hd2 hf2
      · rintro (h | h)
        · exact absurd h hd
        · exact absurd h hf

/-- Witness for C9 at a concrete state. -/
theorem addFlapper_idempotent_witness :
    addFlapper { initDamperState with flappers := ["a"] } "a" =
      { initDamperState with flappers := ["a"] } :=
  (addFlapper_idempotent { initDamperState with flappers := ["a"] } "a").2
    (Or.inr (by decide))

/-- C4 (code bug): on a state whose only damped entry is exactly
`suppressDuration` old, the expiration tick removes the entry — the damped
set is empty after the scan — yet the expiration timer stays armed, because
`Object.keys(this.dampedMembers) === 0` is false for every array. -/
theorem expire_never_cancels_timer :
    (expireDampedMembers
        { initDamperState with dampedMembers := [("x", 0)], expirationTimerArmed := true }
        1000 1000).dampedMembers = [] ∧
      (expireDampedMembers
        { initDamperState with dampedMembers := [("x", 0)], expirationTimerArmed := true }
        1000 1000).expirationTimerArmed = true := by
  decide

/-! ## Helper lemmas: fan-out -/

theorem dampAccum_numPendingReqs (st : FanoutState) (r : Response) :
    (dampAccum st r).numPendingReqs = st.numPendingReqs - 1 := by
  cases r with
  | err e => rfl
  | ok res => cases hc : res.changes <;> simp [dampAccum, hc]

theorem dampAccum_consumed (st : FanoutState) (r : Response) :
    (dampAccum st r).consumed = st.consumed := by
  cases r with
  | err e => rfl
  | ok res => cases hc : res.changes <;> simp [dampAccum, hc]

theorem dampAccum_invocationCount (st : FanoutState) (r : Response) :
    (dampAccum st r).invocationCount = st.invocationCount := by
  cases r with
  | err e => rfl
  | ok res => cases hc : res.changes <;> simp [dampAccum, hc]

theorem dampAccum_output (st : FanoutState) (r : Response) :
    (dampAccum st r).output = st.output := by
  cases r with
  | err e => rfl
  | ok res => cases hc : res.changes <;> simp [dampAccum, hc]

theorem dampStep_frozen (fl : List String) (rv : Nat) (st : FanoutState) (r : Response)
    (h : st.consumed = true) : dampStep fl rv st r = st := by
  unfold dampStep
  rw [if_pos h]

theorem foldl_dampStep_frozen (fl : List String) (rv : Nat) (rs : List Response)
    (st : FanoutState) (h : st.consumed = true) :
    rs.foldl (dampStep fl rv) st = st := by
  induction rs with
  | nil => rfl
  | cons r rs ih =>
      rw [List.foldl_cons, dampStep_frozen fl rv st r h]
      exact ih

theorem dampStep_not_consumed (fl : List String) (rv : Nat) (st : FanoutState)
    (r : Response) (hc : st.consumed = false) :
    dampStep fl rv st r =
      if rv ≤ (dampAccum st r).results.length then
        { dampAccum st r with
            output := some (.success (dampAccum st r).results), consumed := true,
            invocationCount := (dampAccum st r).invocationCount + 1 }
      else if (dampAccum st r).numPendingReqs < rv - (dampAccum st r).results.length then
        { dampAccum st r with
            output := some (.unattainable fl rv (dampAccum st r).errors), consumed := true,
            invocationCount := (dampAccum st r).invocationCount + 1 }
      else dampAccum st r := by
  unfold dampStep
  rw [if_neg (by simp [hc])]

theorem fanout_completes_aux (fl : List String) (rv : Nat) (rs : List Response) :
    ∀ st : FanoutState, st.consumed = false → st.invocationCount = 0 →
      st.numPendingReqs = rs.length → st.results.length < rv →
      rv - st.results.length ≤ st.numPendingReqs →
      (rs.foldl (dampStep fl rv) st).invocationCount = 1 ∧
        (rs.foldl (dampStep fl rv) st).output.isSome = true := by
  induction rs with
  | nil =>
      intro st hc hcount hp hlen hsat
      exfalso
      simp only [List.length_nil] at hp
      omega
  | cons r rs ih =>
      intro st hc hcount hp hlen hsat
      rw [List.foldl_cons]
      have hAc : (dampAccum st r).consumed = false := by
        rw [dampAccum_consumed]; exact hc
      have hAcount : (dampAccum st r).invocationCount = 0 := by
        rw [dampAccum_invocationCount]; exact hcount
      have hAp : (dampAccum st r).numPendingReqs = rs.length := by
        rw [dampAccum_numPendingReqs, hp]
        simp
      rw [dampStep_not_consumed fl rv st r hc]
      by_cases h1 : rv ≤ (dampAccum st r).results.length
      · rw [if_pos h1, foldl_dampStep_frozen fl rv rs _ rfl]
        exact ⟨by simp [hAcount], rfl⟩
      · rw [if_neg h1]
        by_cases h2 :
            (dampAccum st r).numPendingReqs < rv - (dampAccum st r).results.length
        · rw [if_pos h2, foldl_dampStep_frozen fl rv rs _ rfl]
          exact ⟨by simp [hAcount], rfl⟩
        · rw [if_neg h2]
          exact ih (dampAccum st r) hAc hAcount hAp (Nat.lt_of_not_le h1)
            (Nat.le_of_not_lt h2)

theorem fanout_unattain_exists_aux (fl : List String) (rv : Nat) (rs : List Response)
    (errs : List String) :
    ∀ st : FanoutState, st.consumed = false → st.output = none →
      (rs.foldl (dampStep fl rv) st).output = some (.unattainable fl rv errs) →
      ∃ k, ∃ hk : k < rs.length,
        ((rs.take k).foldl (dampStep fl rv) st).consumed = false ∧
          unattainGuard rv
            (dampAccum ((rs.take k).foldl (dampStep fl rv) st) (rs.get ⟨k, hk⟩)) := by
  induction rs with
  | nil =>
      intro st hc ho hout
      rw [List.foldl_nil, ho] at hout
      exact absurd hout (by simp)
  | cons r rs ih =>
      intro st hc ho hout
      rw [List.foldl_cons, dampStep_not_consumed fl rv st r hc] at hout
      by_cases h1 : rv ≤ (dampAccum st r).results.length
      · rw [if_pos h1, foldl_dampStep_frozen fl rv rs _ rfl] at hout
        simp at hout
      · rw [if_neg h1] at hout
        by_cases h2 :
            (dampAccum st r).numPendingReqs < rv - (dampAccum st r).results.length
        · refine ⟨0, by simp, ?_, ?_⟩
          · rw [List.take_zero, List.foldl_nil]
            exact hc
          · rw [List.take_zero, List.foldl_nil]
            simpa [unattainGuard] using h2
        · rw [if_neg h2] at hout
          obtain ⟨k, hk, hcons, hguard⟩ := ih (dampAccum st r)
            (by rw [dampAccum_consumed]; exact hc)
            (by rw [dampAccum_output]; exact ho) hout
          refine ⟨k + 1, by simpa using Nat.succ_lt_succ hk, ?_, ?_⟩
          · rw [List.take_succ_cons, List.foldl_cons,
              dampStep_not_consumed fl rv st r hc, if_neg h1, if_neg h2]
            exact hcons
          · rw [List.take_succ_cons, List.foldl_cons,
              dampStep_not_consumed fl rv st r hc, if_neg h1, if_neg h2]
            simpa using hguard

theorem fanout_unattain_commit_aux (fl : List String) (rv : Nat) (rs : List Response) :
    ∀ (st : FanoutState) (k : Nat) (hk : k < rs.length),
      ((rs.take k).foldl (dampStep fl rv) st).consumed = false →
      unattainGuard rv
        (dampAccum ((rs.take k).foldl (dampStep fl rv) st) (rs.get ⟨k, hk⟩)) →
      (rs.foldl (dampStep fl rv) st).output =
        some (.unattainable fl rv
          (dampAccum ((rs.take k).foldl (dampStep fl rv) st) (rs.get ⟨k, hk⟩)).errors) := by
  induction rs with
  | nil =>
      intro st k hk
      exact absurd hk (by simp)
  | cons r rs ih =>
      intro st k hk hcons hguard
      cases k with
      | zero =>
          rw [List.take_zero, List.foldl_nil] at hcons hguard ⊢
          have hr : (r :: rs).get ⟨0, hk⟩ = r := rfl
          rw [hr] at hguard ⊢
          have h1 : ¬ rv ≤ (dampAccum st r).results.length := by
            unfold unattainGuard at hguard
            omega
          have h2 : (dampAccum st r).numPendingReqs <
              rv - (dampAccum st r).results.length := hguard
          rw [List.foldl_cons, dampStep_not_consumed fl rv st r hcons, if_neg h1,
            if_pos h2, foldl_dampStep_frozen fl rv rs _ rfl]
      | succ k =>
          have hk' : k < rs.length := Nat.lt_of_succ_lt_succ hk
          have hr : (r :: rs).get ⟨k + 1, hk⟩ = rs.get ⟨k, hk'⟩ := rfl
          rw [List.take_succ_cons, List.foldl_cons] at hcons hguard
          rw [List.foldl_cons, hr]
          rw [hr] at hguard
          exact ih (dampStep fl rv st r) k hk' hcons hguard

/-! ## Claim theorems: fan-out -/

/-- C2: over `rs.length` observers each invoking its callback exactly once,
with quorum `1 ≤ rVal ≤ rs.length`, the fan-out continuation is invoked
exactly once, with some outcome (the success list or the unattainable-rVal
error). -/
theorem fanout_exactly_once (fl : List String) (rv : Nat) (rs : List Response)
    (h1 : 1 ≤ rv) (h2 : rv ≤ rs.length) :
    (runFanout fl rv rs).invocationCount = 1 ∧
      (runFanout fl rv rs).output.isSome = true := by
  unfold runFanout
  refine fanout_completes_aux fl rv rs (initFanout rs.length) rfl rfl rfl ?_ ?_
  · simp only [initFanout, List.length_nil]
    omega
  · simp only [initFanout, List.length_nil]
    omega

/-- Witness for C2 at a concrete fan-out. -/
theorem fanout_exactly_once_witness :
    (runFanout ["f"] 1 [.ok ⟨none⟩]).invocationCount = 1 ∧
      (runFanout ["f"] 1 [.ok ⟨none⟩]).output.isSome = true :=
  fanout_exactly_once ["f"] 1 [.ok ⟨none⟩] (by decide) (by decide)

/-- C6: the continuation receives the unattainable-rVal error exactly when
some response, processed with the continuation not yet consumed, leaves
fewer still-pending requests than `rVal` minus the successes so far; and the
error then carries the flapper list, `rVal`, and exactly the errors
accumulated through that response. -/
theorem unattainable_iff (fl : List String) (rv : Nat) (rs : List Response) :
    ((∃ errs, (runFanout fl rv rs).output = some (.unattainable fl rv errs)) ↔
      ∃ k, ∃ hk : k < rs.length,
        (fanoutAfter fl rv rs k).consumed = false ∧
          unattainGuard rv (dampAccum (fanoutAfter fl rv rs k) (rs.get ⟨k, hk⟩))) ∧
      (∀ (k : Nat) (hk : k < rs.length),
        (fanoutAfter fl rv rs k).consumed = false →
        unattainGuard rv (dampAccum (fanoutAfter fl rv rs k) (rs.get ⟨k, hk⟩)) →
        (runFanout fl rv rs).output =
          some (.unattainable fl rv
            (dampAccum (fanoutAfter fl rv rs k) (rs.get ⟨k, hk⟩)).errors)) := by
  constructor
  · constructor
    · rintro ⟨errs, hout⟩
      exact fanout_unattain_exists_aux fl rv rs errs (initFanout rs.length) rfl rfl hout
    · rintro ⟨k, hk, hcons, hguard⟩
      exact ⟨_, fanout_unattain_commit_aux fl rv rs (initFanout rs.length) k hk hcons hguard⟩
  · intro k hk hcons hguard
    exact fanout_unattain_commit_aux fl rv rs (initFanout rs.length) k hk hcons hguard

/-- Witness for C6 at a concrete fan-out: one observer, quorum 2, the single
response errors, so the continuation gets the unattainable-rVal error with
that one error inside. -/
theorem unattainable_iff_witness :
    (runFanout ["f"] 2 [.err "e1"]).output =
      some (.unattainable ["f"] 2 ["e1"]) :=
  (unattainable_iff ["f"] 2 [.err "e1"]).2 0 (by decide) (by decide) (by decide)

/-- C5 counterexample: with quorum 1 over two observers, the first success
consumes the continuation; the second, late success carries a changes
piggyback, yet no changes at all are applied — the double-callback guard
returns before `membership.update`. -/
theorem late_changes_not_applied :
    (fanoutAfter ["f"] 1 [.ok ⟨none⟩, .ok ⟨some ["c1"]⟩] 1).consumed = true ∧
      (runFanout ["f"] 1 [.ok ⟨none⟩, .ok ⟨some ["c1"]⟩]).appliedChanges = [] := by
  decide

/-- C5 amended: once the continuation has been consumed, a late response has
no effect whatsoever — in particular its changes piggyback is not applied. -/
theorem consumed_response_noop (fl : List String) (rv : Nat) (st : FanoutState)
    (r : Response) (h : st.consumed = true) : dampStep fl rv st r = st := by
  unfold dampStep
  rw [if_pos h]

/-- Witness for the amended C5 at a concrete consumed state. -/
theorem consumed_response_noop_witness :
    dampStep ["f"] 1 { initFanout 1 with consumed := true } (.ok ⟨some ["c1"]⟩) =
      { initFanout 1 with consumed := true } :=
  consumed_response_noop ["f"] 1 { initFanout 1 with consumed := true }
    (.ok ⟨some ["c1"]⟩) rfl
